import Mathlib

/-!
Shallow embedding of the filrewards service
(`src/api/filrewardsd/service/service.go`).

Modelling conventions:
* MongoDB collections become Lean lists of records; `InsertOne` appends.
* Go maps `map[string]map[pb.RewardType]struct{}` become association
  lists `List (String × List RewardType)`; the Go expression
  `m[k][t] = struct{}{}` panics when `k` is absent from `m` (assignment
  into a nil inner map), which we model with `Option`: `none` = panic.
* `time.Now()` becomes an explicit `now : Nat` parameter; timestamps are
  naturals.
* gRPC error returns become `Except ErrCode`; the `Reward` field of a
  `ProcessAnalyticsEventResponse` becomes `Option reward` (`none` =
  empty response).
* Aggregation pipelines are translated per MongoDB semantics: `$match`
  filters, `$group` over zero input documents emits no row, and `$sum`
  of a field that is missing from every document contributes 0.
-/

set_option autoImplicit false

namespace FilRewards

/-- The `pb.RewardType` enumeration, without the UNSPECIFIED member (which we model as
`Option RewardType = none`). -/
inductive RewardType where
  | firstKeyAccountCreated
  | firstKeyUserCreated
  | firstOrgCreated
  | initialBillingSetup
  | firstBucketCreated
  | firstBucketArchiveCreated
  | firstMailboxCreated
  | firstThreadDBCreated
deriving DecidableEq, Repr

/-- Values of `analyticspb.Event` relevant to the service: the eight events
of the `switch` in `ProcessAnalyticsEvent`, the UNSPECIFIED event, and
`other` standing for any analytics event the switch does not handle. -/
inductive Event where
  | unspecified
  | keyAccountCreated
  | keyUserCreated
  | orgCreated
  | billingSetup
  | bucketCreated
  | bucketArchiveCreated
  | mailboxCreated
  | threadDBCreated
  | other
deriving DecidableEq, Repr

/-- The `factor` of `rewardTypeMeta` (the `meta` struct holds only a
factor). -/
def rewardTypeMeta : RewardType → Int
  | .firstKeyAccountCreated => 3
  | .firstKeyUserCreated => 1
  | .firstOrgCreated => 3
  | .initialBillingSetup => 1
  | .firstBucketCreated => 2
  | .firstBucketArchiveCreated => 2
  | .firstMailboxCreated => 1
  | .firstThreadDBCreated => 1

/-- The `switch req.AnalyticsEvent` mapping of `ProcessAnalyticsEvent`;
`none` models the reward type staying `REWARD_TYPE_UNSPECIFIED`. -/
def eventToRewardType : Event → Option RewardType
  | .keyAccountCreated => some .firstKeyAccountCreated
  | .keyUserCreated => some .firstKeyUserCreated
  | .orgCreated => some .firstOrgCreated
  | .billingSetup => some .initialBillingSetup
  | .bucketCreated => some .firstBucketCreated
  | .bucketArchiveCreated => some .firstBucketArchiveCreated
  | .mailboxCreated => some .firstMailboxCreated
  | .threadDBCreated => some .firstThreadDBCreated
  | _ => none

/-- The `reward` bson document. -/
structure reward where
  orgKey : String
  devKey : String
  type : RewardType
  factor : Int
  baseAttoFILReward : Int
  createdAt : Nat
deriving DecidableEq, Repr

/-- The `claim` bson document. -/
structure claim where
  orgKey : String
  claimedBy : String
  amount : Int
  createdAt : Nat
deriving DecidableEq, Repr

/-- One of the two idempotency-cache maps
(`map[string]map[pb.RewardType]struct{}`): an association list from key
to the set (list) of reward types marked for that key. -/
abbrev Cache : Type := List (String × List RewardType)

/-- Go map read `m[k]`: first (only) entry with key `k`, if any. -/
def cacheLookup : Cache → String → Option (List RewardType)
  | [], _ => none
  | (k₂, ts) :: rest, k => if k₂ = k then some ts else cacheLookup rest k

/-- Function `ensureKeyRewardCache`: add an empty inner set for `k` when absent. -/
def ensureKeyRewardCache (c : Cache) (k : String) : Cache :=
  match cacheLookup c k with
  | some _ => c
  | none => (k, []) :: c

/-- The Go read `_, exists := m[k][t]`: `false` when the outer key is
absent (nil inner map). -/
def cacheHas (c : Cache) (k : String) (t : RewardType) : Bool :=
  match cacheLookup c k with
  | none => false
  | some ts => ts.contains t

/-- The Go write `m[k][t] = struct{}{}`: when `k` is absent from `m` the
inner map is nil and the assignment panics, modelled as `none`. -/
def cacheMark (c : Cache) (k : String) (t : RewardType) : Option Cache :=
  match cacheLookup c k with
  | none => none
  | some _ =>
      some (c.map fun p =>
        if p.1 = k then (p.1, if p.2.contains t then p.2 else t :: p.2) else p)

/-- Service state: the two mongo collections, the two cache maps, and
the configured base reward. -/
structure Service where
  rewards : List reward
  claims : List claim
  rewardsCacheOrg : Cache
  rewardsCacheDev : Cache
  baseAttoFILReward : Int
deriving DecidableEq, Repr

/-- gRPC status codes used by the service. -/
inductive ErrCode where
  | invalidArgument
  | internal
deriving DecidableEq, Repr

/-- The cache-population loop of `New` (lines 145–154 of service.go).
For each persisted reward it ensures `rec.OrgKey` in the org cache and
`rec.DevKey` in the dev cache, then executes
`cacheOrg[rec.OrgKey][rec.Type] = struct{}{}` and
`cacheOrg[rec.DevKey][rec.Type] = struct{}{}` — both writes target the
ORG cache, exactly as the source does; the second write panics (`none`)
when `rec.DevKey` has no entry in the org cache. -/
def seedLoop : List reward → Cache → Cache → Option (Cache × Cache)
  | [], cacheOrg, cacheDev => some (cacheOrg, cacheDev)
  | rec :: rest, cacheOrg, cacheDev =>
      let cacheOrg := ensureKeyRewardCache cacheOrg rec.orgKey
      let cacheDev := ensureKeyRewardCache cacheDev rec.devKey
      match cacheMark cacheOrg rec.orgKey rec.type with
      | none => none
      | some cacheOrg =>
          match cacheMark cacheOrg rec.devKey rec.type with
          | none => none
          | some cacheOrg => seedLoop rest cacheOrg cacheDev

/-- Cache seeding at startup: scan the whole rewards collection starting
from empty caches. -/
def seed (rewards : List reward) : Option (Cache × Cache) :=
  seedLoop rewards [] []

/-- Method `totalRewarded`: aggregate over the rewards collection —
`$match org_key`, `$project amt = factor * base_atto_fil_reward`,
`$group` summing `amt`. With no matching document the pipeline emits no
row, the Go loop never finds a `total` element, and the function
returns an error (`none`). -/
def totalRewarded (s : Service) (orgKey : String) : Option Int :=
  let matched := s.rewards.filter fun r => r.orgKey = orgKey
  if matched.isEmpty then none
  else some (matched.foldl (fun acc r => acc + r.factor * r.baseAttoFILReward) 0)

/-- Method `totalClaimed`: NOTE the source aggregates over `s.rewardsCol` (the
REWARDS collection), not the claims collection — `$match org_key` then
`$group` summing the field `amount`, which no reward document carries.
MongoDB's `$sum` skips missing fields, so the group total is 0 whenever
at least one reward matches, and with no matching reward the pipeline
emits no row and the function returns an error (`none`). -/
def totalClaimed (s : Service) (orgKey : String) : Option Int :=
  let matched := s.rewards.filter fun r => r.orgKey = orgKey
  if matched.isEmpty then none
  else some 0

/-- The request message `pb.ClaimRequest`. -/
structure ClaimRequest where
  orgKey : String
  claimedBy : String
  amount : Int
deriving DecidableEq, Repr

/-- The `Claim` service method: compute totals, reject amounts above
`available`, otherwise append one claim record. -/
def Claim (s : Service) (req : ClaimRequest) (now : Nat) :
    Except ErrCode Unit × Service :=
  match totalRewarded s req.orgKey with
  | none => (.error .internal, s)
  | some rewarded =>
      match totalClaimed s req.orgKey with
      | none => (.error .internal, s)
      | some claimed =>
          let available := rewarded - claimed
          if req.amount > available then (.error .invalidArgument, s)
          else
            (.ok (), { s with
              claims := s.claims ++ [⟨req.orgKey, req.claimedBy, req.amount, now⟩] })

/-- The `Balance` service method: `(rewarded, claimed, available)`. -/
def Balance (s : Service) (orgKey : String) :
    Except ErrCode (Int × Int × Int) :=
  match totalRewarded s orgKey with
  | none => .error .internal
  | some rewarded =>
      match totalClaimed s orgKey with
      | none => .error .internal
      | some claimed => .ok (rewarded, claimed, rewarded - claimed)

/-- The spec's `claimed` for an organization: `Σ(amount)` over all Claim
records for that organization (spec §4.4). Stated from the spec's words
so the source's `totalClaimed` can be compared against it. -/
def specClaimed (s : Service) (orgKey : String) : Int :=
  (s.claims.filter fun c => c.orgKey = orgKey).foldl (fun acc c => acc + c.amount) 0

/-- The spec's `rewarded` for an organization: `Σ(factor × baseAmount)`
over all Reward records for that organization (spec §4.4), stated from
the spec's words. -/
def specRewarded (s : Service) (orgKey : String) : Int :=
  (s.rewards.filter fun r => r.orgKey = orgKey).foldl
    (fun acc r => acc + r.factor * r.baseAttoFILReward) 0

/-- The request message `pb.ProcessAnalyticsEventRequest`. -/
structure ProcessAnalyticsEventRequest where
  orgKey : String
  devKey : String
  analyticsEvent : Event
deriving DecidableEq, Repr

/-- The `ProcessAnalyticsEvent` service method. `insertFails` is an
oracle for whether `rewardsCol.InsertOne` fails (e.g. a uniqueness
violation raised by another writer). The outer `Option` models a Go
panic (`none`); the response's `Option reward` is the `Reward` field
(`none` = empty response). -/
def ProcessAnalyticsEvent (s : Service) (req : ProcessAnalyticsEventRequest)
    (insertFails : Bool) (now : Nat) :
    Option (Except ErrCode (Option reward) × Service) :=
  if req.orgKey = "" then some (.error .invalidArgument, s)
  else if req.analyticsEvent = .unspecified then some (.error .invalidArgument, s)
  else
    match eventToRewardType req.analyticsEvent with
    | none =>
        -- an analytics event we aren't interested in: empty result, no error
        some (.ok none, s)
    | some t =>
        let s := { s with
          rewardsCacheOrg := ensureKeyRewardCache s.rewardsCacheOrg req.orgKey
          rewardsCacheDev := ensureKeyRewardCache s.rewardsCacheDev req.devKey }
        if cacheHas s.rewardsCacheOrg req.orgKey t then
          -- already granted to the Org so bail
          some (.ok none, s)
        else if cacheHas s.rewardsCacheDev req.devKey t then
          -- already granted to the Dev so bail
          some (.ok none, s)
        else
          let r : reward :=
            ⟨req.orgKey, req.devKey, t, rewardTypeMeta t, s.baseAttoFILReward, now⟩
          if insertFails then some (.error .internal, s)
          else
            match cacheMark s.rewardsCacheOrg req.orgKey t with
            | none => none
            | some cacheOrg =>
                match cacheMark s.rewardsCacheDev req.devKey t with
                | none => none
                | some cacheDev =>
                    some (.ok (some r), { s with
                      rewards := s.rewards ++ [r]
                      rewardsCacheOrg := cacheOrg
                      rewardsCacheDev := cacheDev })

/-- The request message `pb.ListRewardsRequest`; `rewardTypeFilter = none` models
`REWARD_TYPE_UNSPECIFIED`, `startAt = none` a nil `StartAt`. -/
structure ListRewardsRequest where
  orgKeyFilter : String
  devKeyFilter : String
  rewardTypeFilter : Option RewardType
  limit : Int
  ascending : Bool
  startAt : Option Nat
deriving DecidableEq, Repr

/-- The response message `pb.ListRewardsResponse`. -/
structure ListRewardsResponse where
  rewards : List reward
  more : Bool
  moreStartAt : Option Nat
deriving DecidableEq, Repr

/-- The non-`created_at` part of the `ListRewards` mongo filter. -/
def rewardBaseMatch (req : ListRewardsRequest) (r : reward) : Bool :=
  (req.orgKeyFilter = "" || r.orgKey = req.orgKeyFilter) &&
  (req.devKeyFilter = "" || r.devKey = req.devKeyFilter) &&
  (match req.rewardTypeFilter with
   | none => true
   | some t => r.type = t)

/-- The `comp` variable of `ListRewards`/`ListClaims`: it starts as
`$lt` and is set to `$gt` only inside the `if req.StartAt != nil`
branch, when ascending. `true` means `$gt`. -/
def listComp (ascending : Bool) (startAt : Option Nat) : Bool :=
  match startAt with
  | none => false
  | some _ => ascending

/-- The `created_at` clause `{comp: cursor}` applied to a timestamp. -/
def compMatch (comp : Bool) (cursor ts : Nat) : Bool :=
  if comp then cursor < ts else ts < cursor

/-- Insertion step for sorting by `created_at` in the requested
direction (mongo sort on the `created_at` index). -/
def insertByCreatedAt (ascending : Bool) (r : reward) :
    List reward → List reward
  | [] => [r]
  | x :: xs =>
      if (if ascending then r.createdAt ≤ x.createdAt else x.createdAt ≤ r.createdAt)
      then r :: x :: xs
      else x :: insertByCreatedAt ascending r xs

/-- Sort rewards by `created_at` in the requested direction. -/
def sortRewards (ascending : Bool) : List reward → List reward
  | [] => []
  | x :: xs => insertByCreatedAt ascending x (sortRewards ascending xs)

/-- The `ListRewards` service method: filter, sort by `created_at`,
apply the limit when positive, then run the extra existence probe with
the same filter but `created_at` replaced by `{comp: last.CreatedAt}`. -/
def ListRewards (s : Service) (req : ListRewardsRequest) : ListRewardsResponse :=
  let comp := listComp req.ascending req.startAt
  let filtered := s.rewards.filter fun r =>
    rewardBaseMatch req r &&
    (match req.startAt with
     | none => true
     | some cursor => compMatch comp cursor r.createdAt)
  let sorted := sortRewards req.ascending filtered
  let page := if req.limit > 0 then sorted.take req.limit.toNat else sorted
  match page.getLast? with
  | none => ⟨page, false, none⟩
  | some last =>
      let more := s.rewards.any fun r =>
        rewardBaseMatch req r && compMatch comp last.createdAt r.createdAt
      ⟨page, more, if more then some last.createdAt else none⟩

/-- Follow the cursor protocol from a client's point of view: fetch a
page, and while `more` is set, fetch again passing back `moreStartAt`.
`fuel` bounds the number of fetches. -/
def paginateRewards (s : Service) (req : ListRewardsRequest) :
    Nat → Option Nat → List reward
  | 0, _ => []
  | fuel + 1, cursor =>
      let res := ListRewards s { req with startAt := cursor }
      if res.more then res.rewards ++ paginateRewards s req fuel res.moreStartAt
      else res.rewards

/-- The request message `pb.ListClaimsRequest`. -/
structure ListClaimsRequest where
  orgKeyFilter : String
  claimedByFilter : String
  limit : Int
  ascending : Bool
  startAt : Option Nat
deriving DecidableEq, Repr

/-- The response message `pb.ListClaimsResponse`. -/
structure ListClaimsResponse where
  claims : List claim
  more : Bool
  moreStartAt : Option Nat
deriving DecidableEq, Repr

/-- The non-`created_at` part of the `ListClaims` mongo filter. -/
def claimBaseMatch (req : ListClaimsRequest) (c : claim) : Bool :=
  (req.orgKeyFilter = "" || c.orgKey = req.orgKeyFilter) &&
  (req.claimedByFilter = "" || c.claimedBy = req.claimedByFilter)

/-- Insertion step for sorting claims by `created_at`. -/
def insertClaimByCreatedAt (ascending : Bool) (c : claim) :
    List claim → List claim
  | [] => [c]
  | x :: xs =>
      if (if ascending then c.createdAt ≤ x.createdAt else x.createdAt ≤ c.createdAt)
      then c :: x :: xs
      else x :: insertClaimByCreatedAt ascending c xs

/-- Sort claims by `created_at` in the requested direction. -/
def sortClaims (ascending : Bool) : List claim → List claim
  | [] => []
  | x :: xs => insertClaimByCreatedAt ascending x (sortClaims ascending xs)

/-- The `ListClaims` service method, structured exactly like
`ListRewards` over the claims collection. -/
def ListClaims (s : Service) (req : ListClaimsRequest) : ListClaimsResponse :=
  let comp := listComp req.ascending req.startAt
  let filtered := s.claims.filter fun c =>
    claimBaseMatch req c &&
    (match req.startAt with
     | none => true
     | some cursor => compMatch comp cursor c.createdAt)
  let sorted := sortClaims req.ascending filtered
  let page := if req.limit > 0 then sorted.take req.limit.toNat else sorted
  match page.getLast? with
  | none => ⟨page, false, none⟩
  | some last =>
      let more := s.claims.any fun c =>
        claimBaseMatch req c && compMatch comp last.createdAt c.createdAt
      ⟨page, more, if more then some last.createdAt else none⟩

/-! Concrete fixtures used to evaluate the operations on small inputs. -/

/-- A one-record ledger whose reward has distinct org and dev keys. -/
def singleRewardLedger : List reward :=
  [⟨"o", "d", .firstBucketCreated, 2, 100, 1⟩]

/-- A two-record ledger: the second reward's dev key equals the first
reward's org key, so the seed scan completes without panicking. Both
records are producible by grants (distinct (key, type) pairs on each
dimension). -/
def twoRewardLedger : List reward :=
  [⟨"a", "a", .firstKeyAccountCreated, 3, 100, 1⟩,
   ⟨"b", "a", .firstOrgCreated, 3, 100, 2⟩]

/-- The org cache the seed scan produces from `twoRewardLedger`. -/
def twoRewardSeededOrgCache : Cache :=
  [("b", [.firstOrgCreated]), ("a", [.firstOrgCreated, .firstKeyAccountCreated])]

/-- The dev cache the seed scan produces from `twoRewardLedger`. -/
def twoRewardSeededDevCache : Cache :=
  [("a", [])]

/-- A service holding one reward worth 200 for org `o` and one claim of
10 by `alice` against org `o`. -/
def rewardAndClaimState : Service :=
  ⟨[⟨"o", "d", .firstBucketCreated, 2, 100, 1⟩], [⟨"o", "alice", 10, 2⟩], [], [], 100⟩

/-- A service with empty ledgers. -/
def emptyState : Service := ⟨[], [], [], [], 100⟩

/-- A service holding one reward worth 100 for org `o` and one prior
claim that already consumed the full 100. -/
def fullyClaimedState : Service :=
  ⟨[⟨"o", "d", .firstKeyUserCreated, 1, 100, 1⟩], [⟨"o", "x", 100, 2⟩], [], [], 100⟩

/-- A service holding one reward worth 100 for org `o` and no claims. -/
def oneRewardState : Service :=
  ⟨[⟨"o", "d", .firstKeyUserCreated, 1, 100, 1⟩], [], [], [], 100⟩

/-- First (older) reward of the two-reward pagination fixture. -/
def pageReward1 : reward := ⟨"o", "d", .firstOrgCreated, 3, 100, 1⟩

/-- Second (newer) reward of the two-reward pagination fixture. -/
def pageReward2 : reward := ⟨"o", "d", .firstBucketCreated, 2, 100, 2⟩

/-- A service holding the two pagination-fixture rewards, with distinct
creation timestamps. -/
def pageState : Service := ⟨[pageReward1, pageReward2], [], [], [], 100⟩

/-- An ascending `ListRewards` request with page size 1, no filters and
no start cursor. -/
def ascLimitOneReq : ListRewardsRequest := ⟨"", "", none, 1, true, none⟩

/-- A valid first-bucket-created request for `org1` / `dev1`. -/
def bucketReq : ProcessAnalyticsEventRequest := ⟨"org1", "dev1", .bucketCreated⟩

/-- A service whose org cache already marks
(`org1`, first-bucket-created). -/
def alreadyGrantedState : Service :=
  ⟨[⟨"org1", "dev1", .firstBucketCreated, 2, 100, 1⟩], [],
   [("org1", [.firstBucketCreated])], [("dev1", [.firstBucketCreated])], 100⟩

/-! Helper lemmas about the cache operations. -/

theorem cacheLookup_cons (p : String × List RewardType) (rest : Cache) (k : String) :
    cacheLookup (p :: rest) k = if p.1 = k then some p.2 else cacheLookup rest k := by
  obtain ⟨k₂, ts⟩ := p
  rfl

theorem cacheLookup_ensure_self (c : Cache) (k : String) :
    (cacheLookup (ensureKeyRewardCache c k) k).isSome = true := by
  unfold ensureKeyRewardCache
  cases h : cacheLookup c k with
  | some ts => simp [h]
  | none => simp [cacheLookup_cons]

theorem cacheHas_ensure (c : Cache) (k k₂ : String) (t : RewardType) :
    cacheHas (ensureKeyRewardCache c k) k₂ t = cacheHas c k₂ t := by
  unfold ensureKeyRewardCache cacheHas
  cases h : cacheLookup c k with
  | some ts => rfl
  | none =>
      rw [cacheLookup_cons]
      by_cases hk : k = k₂
      · subst hk
        rw [h]
        simp
      · simp [hk]

theorem cacheMark_isSome (c : Cache) (k : String) (t : RewardType)
    (h : (cacheLookup c k).isSome = true) : (cacheMark c k t).isSome = true := by
  unfold cacheMark
  cases h2 : cacheLookup c k with
  | none => rw [h2] at h; simp at h
  | some ts => simp

theorem cacheLookup_map_mark (c : Cache) (k : String) (t : RewardType)
    (h : (cacheLookup c k).isSome = true) :
    ∃ ts, cacheLookup
        (c.map fun p =>
          if p.1 = k then (p.1, if p.2.contains t then p.2 else t :: p.2) else p) k =
      some ts ∧ ts.contains t = true := by
  induction c with
  | nil => simp [cacheLookup] at h
  | cons p rest ih =>
      by_cases hk : p.1 = k
      · refine ⟨if p.2.contains t then p.2 else t :: p.2, ?_, ?_⟩
        · rw [List.map_cons, cacheLookup_cons]
          simp [hk]
        · by_cases hc : p.2.contains t = true
          · rw [if_pos hc]
            exact hc
          · rw [if_neg hc]
            simp
      · rw [cacheLookup_cons] at h
        rw [List.map_cons, cacheLookup_cons]
        simp only [hk, if_false] at h ⊢
        exact ih h

theorem cacheHas_cacheMark_self {c c' : Cache} {k : String} {t : RewardType}
    (h : cacheMark c k t = some c') : cacheHas c' k t = true := by
  unfold cacheMark at h
  cases hl : cacheLookup c k with
  | none => rw [hl] at h; cases h
  | some ts =>
      rw [hl] at h
      injection h with h
      subst h
      obtain ⟨ts₂, hts₂, hmem⟩ := cacheLookup_map_mark c k t (by rw [hl]; rfl)
      unfold cacheHas
      rw [hts₂]
      exact hmem

/-- C1. The claim says the claimed total used by `Claim` and `Balance`
equals the sum of the `amount` fields of the Claim records of the
organization. It does not: `totalClaimed` aggregates the REWARDS
collection, whose documents carry no `amount` field, so for org `o`
with one reward worth 200 and one claim of 10 the code computes
claimed = 0 while the spec's sum of claim amounts is 10; `Balance`
reports (rewarded 200, claimed 0, available 200). -/
theorem totalClaimed_ignores_claim_records :
    totalClaimed rewardAndClaimState "o" = some 0 ∧
    specClaimed rewardAndClaimState "o" = 10 ∧
    totalRewarded rewardAndClaimState "o" = some 200 ∧
    Balance rewardAndClaimState "o" = .ok (200, 0, 200) :=
  ⟨rfl, rfl, rfl, rfl⟩

/-- C2. The claim says that with no matching rows the aggregations
return zero and do not fail. In the code an empty aggregation emits no
row and both totals return an error, which `Balance` surfaces as an
internal error: for a fresh organization `neworg` with empty ledgers,
`totalRewarded` and `totalClaimed` are errors (`none`) and `Balance`
fails. -/
theorem empty_aggregation_is_an_error :
    totalRewarded emptyState "neworg" = none ∧
    totalClaimed emptyState "neworg" = none ∧
    Balance emptyState "neworg" = .error .internal :=
  ⟨rfl, rfl, rfl⟩

/-- C3. The claim says the seed scan marks (org key, type) in the org
cache and (dev key, type) in the dev cache and nothing else. In the
code both writes of the loop target the org cache: on a ledger whose
single reward has dev key `d` distinct from every org key, the write
`cacheOrg[rec.DevKey][rec.Type]` hits a nil inner map and panics
(`none`); on `twoRewardLedger` (where the dev key `a` is also an org
key) seeding succeeds but the dev cache is left with no marked pair at
all, and the org cache gains the pair (`a`, firstOrgCreated) that
belongs to the dev dimension. -/
theorem seed_never_marks_dev_cache :
    seed singleRewardLedger = none ∧
    seed twoRewardLedger = some (twoRewardSeededOrgCache, twoRewardSeededDevCache) ∧
    cacheHas twoRewardSeededDevCache "a" .firstKeyAccountCreated = false ∧
    cacheHas twoRewardSeededDevCache "a" .firstOrgCreated = false :=
  ⟨rfl, rfl, rfl, rfl⟩

/-- C4. The claim says every pair marked in either cache corresponds to
a Reward record with that key on the same dimension and that type. The
state seeded from `twoRewardLedger` is reachable (both records are
producible by grants, and seeding runs at every startup), yet its org
cache marks (`a`, firstOrgCreated) while no reward in the ledger has
org key `a` and type firstOrgCreated. -/
theorem seeded_org_cache_not_subset_of_ledger :
    seed twoRewardLedger = some (twoRewardSeededOrgCache, twoRewardSeededDevCache) ∧
    cacheHas twoRewardSeededOrgCache "a" .firstOrgCreated = true ∧
    twoRewardLedger.all
      (fun r => !(r.orgKey == "a" && r.type == RewardType.firstOrgCreated)) = true :=
  ⟨rfl, rfl, rfl⟩

/-- C5. The claim says concatenating the pages obtained by following
`nextCursor` until `hasMore` is false equals the unbounded query, and
`hasMore` is true exactly when a matching record lies strictly beyond
the page's last item in the requested direction. The code initializes
`comp` to `$lt` and flips it to `$gt` only when a start cursor was
supplied, so a first ascending page probes in the wrong direction: over
two rewards with timestamps 1 < 2, an ascending request of limit 1
returns `[pageReward1]` with `hasMore = false` (the probe looks for
`created_at < 1`), so pagination stops and omits `pageReward2`, while
the unbounded ascending query returns both; and an ascending first page
of limit 2 reports `hasMore = true` although nothing lies beyond
timestamp 2. -/
theorem ascending_first_page_probes_wrong_direction :
    paginateRewards pageState ascLimitOneReq 10 none = [pageReward1] ∧
    (ListRewards pageState { ascLimitOneReq with limit := 0 }).rewards =
      [pageReward1, pageReward2] ∧
    (ListRewards pageState ascLimitOneReq).more = false ∧
    (ListRewards pageState { ascLimitOneReq with limit := 2 }).more = true ∧
    pageState.rewards.all (fun r => !(2 < r.createdAt)) = true :=
  ⟨rfl, rfl, rfl, rfl, rfl⟩

/-- C6. The claim says `Claim` fails with invalid-argument exactly when
the amount exceeds available = rewarded − claimed. Because
`totalClaimed` never sees the claims collection, for org `o` with
rewarded = 100 and a prior claim of 100 (spec available = 0) a new
claim of 100 succeeds and appends a second record instead of failing:
the code computed available as 100 − 0. -/
theorem Claim_accepts_overdraw :
    (Claim fullyClaimedState ⟨"o", "bob", 100⟩ 3).1 = .ok () ∧
    (Claim fullyClaimedState ⟨"o", "bob", 100⟩ 3).2.claims =
      [⟨"o", "x", 100, 2⟩, ⟨"o", "bob", 100, 3⟩] ∧
    specRewarded fullyClaimedState "o" - specClaimed fullyClaimedState "o" = 0 ∧
    ((100 : Int) > specRewarded fullyClaimedState "o" - specClaimed fullyClaimedState "o") :=
  ⟨rfl, rfl, rfl, by decide⟩

/-- C10. The claim says a claim whose amount is at most the computed
available balance succeeds with a record written — true — and that a
negative-amount claim increases the subsequently computed available
balance. It does not: for org `o` with one reward worth 100 and no
claims, a claim of −5 succeeds and writes the record, but the
subsequently computed balance is unchanged at (100, 0, 100), because
the claimed aggregation reads the rewards collection and never sees the
new claim record (the spec's available would become 105). -/
theorem negative_claim_leaves_computed_available_unchanged :
    (Claim oneRewardState ⟨"o", "bob", -5⟩ 2).1 = .ok () ∧
    (Claim oneRewardState ⟨"o", "bob", -5⟩ 2).2.claims = [⟨"o", "bob", -5, 2⟩] ∧
    Balance ((Claim oneRewardState ⟨"o", "bob", -5⟩ 2).2) "o" = .ok (100, 0, 100) ∧
    Balance oneRewardState "o" = .ok (100, 0, 100) ∧
    specRewarded ((Claim oneRewardState ⟨"o", "bob", -5⟩ 2).2) "o" -
      specClaimed ((Claim oneRewardState ⟨"o", "bob", -5⟩ 2).2) "o" = 105 :=
  ⟨rfl, rfl, rfl, rfl, rfl⟩

/-- C7. For every grant attempt that reaches the ledger append (valid
request, mapped event, neither cache dimension already granted): if the
append fails the call returns an internal error, the rewards ledger is
unchanged and no (key, type) pair of either cache changes; if the
append succeeds, the record is appended and both the (org key, type)
and (dev key, type) pairs are marked. -/
theorem ProcessAnalyticsEvent_append_and_mark_atomic
    (s : Service) (req : ProcessAnalyticsEventRequest) (now : Nat) (t : RewardType)
    (h1 : req.orgKey ≠ "") (h2 : req.analyticsEvent ≠ Event.unspecified)
    (h3 : eventToRewardType req.analyticsEvent = some t)
    (h4 : cacheHas s.rewardsCacheOrg req.orgKey t = false)
    (h5 : cacheHas s.rewardsCacheDev req.devKey t = false) :
    (∃ s₁, ProcessAnalyticsEvent s req true now =
        some (Except.error ErrCode.internal, s₁) ∧
      s₁.rewards = s.rewards ∧
      (∀ k u, cacheHas s₁.rewardsCacheOrg k u = cacheHas s.rewardsCacheOrg k u) ∧
      (∀ k u, cacheHas s₁.rewardsCacheDev k u = cacheHas s.rewardsCacheDev k u)) ∧
    (∃ r s₂, ProcessAnalyticsEvent s req false now =
        some (Except.ok (some r), s₂) ∧
      s₂.rewards = s.rewards ++ [r] ∧
      cacheHas s₂.rewardsCacheOrg req.orgKey t = true ∧
      cacheHas s₂.rewardsCacheDev req.devKey t = true) := by
  constructor
  · refine ⟨{ s with
        rewardsCacheOrg := ensureKeyRewardCache s.rewardsCacheOrg req.orgKey
        rewardsCacheDev := ensureKeyRewardCache s.rewardsCacheDev req.devKey },
      ?_, rfl, ?_, ?_⟩
    · simp [ProcessAnalyticsEvent, h1, h2, h3, cacheHas_ensure, h4, h5]
    · intro k u
      exact cacheHas_ensure s.rewardsCacheOrg req.orgKey k u
    · intro k u
      exact cacheHas_ensure s.rewardsCacheDev req.devKey k u
  · obtain ⟨co, hco⟩ := Option.isSome_iff_exists.mp
      (cacheMark_isSome _ _ t (cacheLookup_ensure_self s.rewardsCacheOrg req.orgKey))
    obtain ⟨cd, hcd⟩ := Option.isSome_iff_exists.mp
      (cacheMark_isSome _ _ t (cacheLookup_ensure_self s.rewardsCacheDev req.devKey))
    refine ⟨⟨req.orgKey, req.devKey, t, rewardTypeMeta t, s.baseAttoFILReward, now⟩,
      { s with
        rewards := s.rewards ++
          [⟨req.orgKey, req.devKey, t, rewardTypeMeta t, s.baseAttoFILReward, now⟩]
        rewardsCacheOrg := co
        rewardsCacheDev := cd },
      ?_, rfl, cacheHas_cacheMark_self hco, cacheHas_cacheMark_self hcd⟩
    simp [ProcessAnalyticsEvent, h1, h2, h3, cacheHas_ensure, h4, h5, hco, hcd]

/-- Witness for C7: the atomicity theorem applied at a concrete empty
service and a valid first-bucket-created request. -/
theorem ProcessAnalyticsEvent_append_and_mark_atomic_witness :
    (∃ s₁, ProcessAnalyticsEvent emptyState bucketReq true 5 =
        some (Except.error ErrCode.internal, s₁) ∧
      s₁.rewards = emptyState.rewards ∧
      (∀ k u, cacheHas s₁.rewardsCacheOrg k u = cacheHas emptyState.rewardsCacheOrg k u) ∧
      (∀ k u, cacheHas s₁.rewardsCacheDev k u = cacheHas emptyState.rewardsCacheDev k u)) ∧
    (∃ r s₂, ProcessAnalyticsEvent emptyState bucketReq false 5 =
        some (Except.ok (some r), s₂) ∧
      s₂.rewards = emptyState.rewards ++ [r] ∧
      cacheHas s₂.rewardsCacheOrg bucketReq.orgKey RewardType.firstBucketCreated = true ∧
      cacheHas s₂.rewardsCacheDev bucketReq.devKey RewardType.firstBucketCreated = true) :=
  ProcessAnalyticsEvent_append_and_mark_atomic emptyState bucketReq 5
    RewardType.firstBucketCreated (by decide) (by decide) rfl rfl rfl

/-- C8. Every valid request (nonempty org key, specified event) whose
event maps to no reward type, or whose (org key, type) or
(dev key, type) pair is already marked in the corresponding cache,
returns an empty response with no error and appends nothing to the
rewards ledger, whether or not an insert would have failed. -/
theorem ProcessAnalyticsEvent_unmapped_or_duplicate_is_noop
    (s : Service) (req : ProcessAnalyticsEventRequest) (insertFails : Bool) (now : Nat)
    (h1 : req.orgKey ≠ "") (h2 : req.analyticsEvent ≠ Event.unspecified)
    (h3 : eventToRewardType req.analyticsEvent = none ∨
      ∃ t, eventToRewardType req.analyticsEvent = some t ∧
        (cacheHas s.rewardsCacheOrg req.orgKey t = true ∨
         cacheHas s.rewardsCacheDev req.devKey t = true)) :
    ∃ s₃, ProcessAnalyticsEvent s req insertFails now = some (Except.ok none, s₃) ∧
      s₃.rewards = s.rewards := by
  rcases h3 with h3 | ⟨t, h3, h4 | h4⟩
  · exact ⟨s, by simp [ProcessAnalyticsEvent, h1, h2, h3], rfl⟩
  · refine ⟨{ s with
        rewardsCacheOrg := ensureKeyRewardCache s.rewardsCacheOrg req.orgKey
        rewardsCacheDev := ensureKeyRewardCache s.rewardsCacheDev req.devKey },
      ?_, rfl⟩
    simp [ProcessAnalyticsEvent, h1, h2, h3, cacheHas_ensure, h4]
  · refine ⟨{ s with
        rewardsCacheOrg := ensureKeyRewardCache s.rewardsCacheOrg req.orgKey
        rewardsCacheDev := ensureKeyRewardCache s.rewardsCacheDev req.devKey },
      ?_, rfl⟩
    by_cases h5 : cacheHas s.rewardsCacheOrg req.orgKey t = true
    · simp [ProcessAnalyticsEvent, h1, h2, h3, cacheHas_ensure, h5]
    · simp [ProcessAnalyticsEvent, h1, h2, h3, cacheHas_ensure, h4, h5]

/-- Witness for C8: the no-op theorem applied at a service whose org
cache already marks (`org1`, first-bucket-created), with a request that
would otherwise grant it again. -/
theorem ProcessAnalyticsEvent_unmapped_or_duplicate_is_noop_witness :
    ∃ s₃, ProcessAnalyticsEvent alreadyGrantedState bucketReq false 9 =
        some (Except.ok none, s₃) ∧
      s₃.rewards = alreadyGrantedState.rewards :=
  ProcessAnalyticsEvent_unmapped_or_duplicate_is_noop alreadyGrantedState bucketReq
    false 9 (by decide) (by decide)
    (Or.inr ⟨RewardType.firstBucketCreated, rfl, Or.inl rfl⟩)

/-- C9. Every reward created by a successful grant stores the factor
from the static per-type table and the base amount from the service's
configured constant, and the response carries exactly that reward
(which is also the record appended to the ledger). -/
theorem ProcessAnalyticsEvent_grant_uses_table_factor_and_base
    (s : Service) (req : ProcessAnalyticsEventRequest) (now : Nat) (t : RewardType)
    (h1 : req.orgKey ≠ "") (h2 : req.analyticsEvent ≠ Event.unspecified)
    (h3 : eventToRewardType req.analyticsEvent = some t)
    (h4 : cacheHas s.rewardsCacheOrg req.orgKey t = false)
    (h5 : cacheHas s.rewardsCacheDev req.devKey t = false) :
    ∃ s₄, ProcessAnalyticsEvent s req false now =
        some (Except.ok (some
          ⟨req.orgKey, req.devKey, t, rewardTypeMeta t, s.baseAttoFILReward, now⟩), s₄) ∧
      s₄.rewards = s.rewards ++
        [⟨req.orgKey, req.devKey, t, rewardTypeMeta t, s.baseAttoFILReward, now⟩] := by
  obtain ⟨co, hco⟩ := Option.isSome_iff_exists.mp
    (cacheMark_isSome _ _ t (cacheLookup_ensure_self s.rewardsCacheOrg req.orgKey))
  obtain ⟨cd, hcd⟩ := Option.isSome_iff_exists.mp
    (cacheMark_isSome _ _ t (cacheLookup_ensure_self s.rewardsCacheDev req.devKey))
  refine ⟨{ s with
      rewards := s.rewards ++
        [⟨req.orgKey, req.devKey, t, rewardTypeMeta t, s.baseAttoFILReward, now⟩]
      rewardsCacheOrg := co
      rewardsCacheDev := cd },
    ?_, rfl⟩
  simp [ProcessAnalyticsEvent, h1, h2, h3, cacheHas_ensure, h4, h5, hco, hcd]

/-- Witness for C9: the grant of first-bucket-created (table factor 2)
with configured base 100 stores factor 2 and base 100, matching the
spec's scenario. -/
theorem ProcessAnalyticsEvent_grant_uses_table_factor_and_base_witness :
    (∃ s₄, ProcessAnalyticsEvent emptyState bucketReq false 7 =
        some (Except.ok (some
          ⟨bucketReq.orgKey, bucketReq.devKey, RewardType.firstBucketCreated,
           rewardTypeMeta RewardType.firstBucketCreated,
           emptyState.baseAttoFILReward, 7⟩), s₄) ∧
      s₄.rewards = emptyState.rewards ++
        [⟨bucketReq.orgKey, bucketReq.devKey, RewardType.firstBucketCreated,
          rewardTypeMeta RewardType.firstBucketCreated,
          emptyState.baseAttoFILReward, 7⟩]) ∧
    rewardTypeMeta RewardType.firstBucketCreated = 2 ∧
    emptyState.baseAttoFILReward = 100 :=
  ⟨ProcessAnalyticsEvent_grant_uses_table_factor_and_base emptyState bucketReq 7
      RewardType.firstBucketCreated (by decide) (by decide) rfl rfl rfl,
    rfl, rfl⟩

end FilRewards
